import Mathlib

/-!
Verification of the SkillSwapper matching and connection workflow.

Shallow embedding of the backend's data access layer
(`backend/src/models/database.js`) and the match routes
(`routes/matches.js`, `controllers/notificationController.js`).
Database tables are modelled as lists of row records; SQL statements
become Lean functions on those lists.  Skills are joined by `skill_id`
exactly as in the SQL, so a skill is represented by its numeric id.
-/

/-- A row of the `users` table (columns relevant to matching). -/
structure UserRec where
  id : Nat
  name : String
  deriving Repr, DecidableEq

/-- A row of `user_skills_have`: user `user_id` has skill `skill_id`. -/
structure HaveSkill where
  user_id : Nat
  skill_id : Nat
  deriving Repr, DecidableEq

/-- A row of `user_skills_want`: user `user_id` wants skill `skill_id`. -/
structure WantSkill where
  user_id : Nat
  skill_id : Nat
  deriving Repr, DecidableEq

/-- The tables read by `Match.findMatches`. -/
structure MatchDB where
  users : List UserRec
  have_skills : List HaveSkill
  want_skills : List WantSkill
  deriving Repr, DecidableEq

/-- The set of skill ids user `uid` has (`user_skills_have` filtered by user). -/
def haveSet (db : MatchDB) (uid : Nat) : Finset Nat :=
  ((db.have_skills.filter (fun h => h.user_id == uid)).map HaveSkill.skill_id).toFinset

/-- The set of skill ids user `uid` wants (`user_skills_want` filtered by user). -/
def wantSet (db : MatchDB) (uid : Nat) : Finset Nat :=
  ((db.want_skills.filter (fun w => w.user_id == uid)).map WantSkill.skill_id).toFinset

/-- The join/where condition of the `Match.findMatches` SQL: user `uid` is a
candidate for requester `rid` when `uid` is distinct from `rid`, some skill the
requester has is wanted by `uid`, and some skill `uid` has is wanted by the
requester.  The inner joins require both overlaps to be non-empty. -/
def isCandidate (db : MatchDB) (rid uid : Nat) : Prop :=
  uid ≠ rid ∧ (haveSet db rid ∩ wantSet db uid).Nonempty ∧
    (haveSet db uid ∩ wantSet db rid).Nonempty

instance (db : MatchDB) (rid uid : Nat) : Decidable (isCandidate db rid uid) := by
  unfold isCandidate
  infer_instance

/-- A result row of the `findMatches` query (`GROUP BY u.id` with the two
`GROUP_CONCAT(DISTINCT ...)` skill columns, represented as finsets). -/
structure MatchRow where
  id : Nat
  name : String
  matching_skills_i_have : Finset Nat
  matching_skills_i_want : Finset Nat
  deriving DecidableEq

/-- Score of a row as computed by `ORDER BY COUNT(DISTINCT ...) + COUNT(DISTINCT ...)`
and recomputed in the route as `skillsIHave.length + skillsIWant.length`. -/
def rowScore (r : MatchRow) : Nat :=
  r.matching_skills_i_have.card + r.matching_skills_i_want.card

/-- The grouped result set of the `findMatches` query before `ORDER BY`/`LIMIT`:
one row per users-table entry satisfying the join condition, in table order. -/
def candidateRows (db : MatchDB) (rid : Nat) : List MatchRow :=
  (db.users.filter (fun u => decide (isCandidate db rid u.id))).map (fun u =>
    { id := u.id
      name := u.name
      matching_skills_i_have := haveSet db rid ∩ wantSet db u.id
      matching_skills_i_want := haveSet db u.id ∩ wantSet db rid })

/-- Insert `x` into a list sorted descending by `key`, after every element
whose key is at least `key x` (the stable insertion step). -/
def insertDesc (key : α → Nat) (x : α) : List α → List α
  | [] => [x]
  | y :: ys => if key y < key x then x :: y :: ys else y :: insertDesc key x ys

/-- Stable sort, descending by `key`.  Models both the SQL `ORDER BY ... DESC`
(one admissible execution: ties keep table order) and the route's
`Array.prototype.sort`, which is stable and compares scores only. -/
def sortDesc (key : α → Nat) (l : List α) : List α :=
  l.foldl (fun acc x => insertDesc key x acc) []

/-- `Match.findMatches`: candidate rows ordered by score descending,
truncated by `LIMIT 20`. -/
def findMatches (db : MatchDB) (rid : Nat) : List MatchRow :=
  (sortDesc rowScore (candidateRows db rid)).take 20

/-- A processed match as built by the `GET /api/matches` route handler. -/
structure ProcessedMatch where
  userId : Nat
  name : String
  skillsYouCanTeachThem : Finset Nat
  skillsTheyCanTeachYou : Finset Nat
  matchScore : Nat
  deriving DecidableEq

/-- The route's `processedMatches` after its own sort: each query row is mapped
to a processed match and the list is re-sorted by `matchScore` descending
(the JavaScript sort is stable and compares scores only). -/
def processedMatches (db : MatchDB) (rid : Nat) : List ProcessedMatch :=
  sortDesc ProcessedMatch.matchScore
    ((findMatches db rid).map (fun r =>
      { userId := r.id
        name := r.name
        skillsYouCanTeachThem := r.matching_skills_i_have
        skillsTheyCanTeachYou := r.matching_skills_i_want
        matchScore := rowScore r }))

/-- The paginated page returned by `GET /api/matches`:
`processedMatches.slice(offset, offset + limit)`. -/
def getMatchesPage (db : MatchDB) (rid lim off : Nat) : List ProcessedMatch :=
  ((processedMatches db rid).drop off).take lim

/-- The `pagination.total` field of the route response. -/
def paginationTotal (db : MatchDB) (rid : Nat) : Nat :=
  (processedMatches db rid).length

/-! ## Connection workflow (`matches` table) -/

/-- The `status` enum of the `matches` table. -/
inductive MatchStatus where
  | pending
  | accepted
  | declined
  | expired
  deriving Repr, DecidableEq

/-- A row of the `matches` table.  `user1_id` is the initiator of the proposal,
`user2_id` the target; the `UNIQUE KEY unique_match (user1_id, user2_id)` makes
the ordered pair a key.  The JSON snapshot is kept as its serialized string. -/
structure MatchRec where
  user1_id : Nat
  user2_id : Nat
  matched_skills : String
  status : MatchStatus
  created_at : Nat
  updated_at : Nat
  deriving Repr, DecidableEq

/-- Test against the unique key: ordered `(user1_id, user2_id)` pair. -/
def matchKeyEq (r : MatchRec) (u1 u2 : Nat) : Bool :=
  r.user1_id == u1 && r.user2_id == u2

/-- The pair predicate of `Match.accept`/`Match.decline`:
`(user1_id = a AND user2_id = b) OR (user1_id = b AND user2_id = a)`. -/
def pairEq (r : MatchRec) (a b : Nat) : Bool :=
  (r.user1_id == a && r.user2_id == b) || (r.user1_id == b && r.user2_id == a)

/-- The `ON DUPLICATE KEY UPDATE` branch of `Match.create`: a row whose key
equals the inserted `(user1Id, user2Id)` gets a fresh snapshot and
`updated_at = CURRENT_TIMESTAMP`; everything else is unchanged. -/
def createUpdateRow (u1 u2 : Nat) (skills : String) (now : Nat) (r : MatchRec) : MatchRec :=
  if matchKeyEq r u1 u2 then { r with matched_skills := skills, updated_at := now } else r

/-- The row inserted by `Match.create` when no duplicate key exists. -/
def newMatchRow (u1 u2 : Nat) (skills : String) (now : Nat) : MatchRec :=
  { user1_id := u1
    user2_id := u2
    matched_skills := skills
    status := .pending
    created_at := now
    updated_at := now }

/-- `Match.create(user1Id, user2Id, matchedSkills)`: `INSERT ... ON DUPLICATE
KEY UPDATE matched_skills = VALUES(matched_skills), updated_at = CURRENT_TIMESTAMP`.
The duplicate-key test uses the ordered unique key `(user1_id, user2_id)`. -/
def matchCreate (rows : List MatchRec) (u1 u2 : Nat) (skills : String) (now : Nat) :
    List MatchRec :=
  if rows.any (fun r => matchKeyEq r u1 u2) then
    rows.map (createUpdateRow u1 u2 skills now)
  else
    rows ++ [newMatchRow u1 u2 skills now]

/-- Effect of `Match.accept` on one row: rows matching
`status = 'pending' AND (pair in either direction)` become `accepted`. -/
def acceptRow (a b now : Nat) (r : MatchRec) : MatchRec :=
  if r.status == .pending && pairEq r a b then
    { r with status := .accepted, updated_at := now }
  else r

/-- Effect of `Match.decline` on one row. -/
def declineRow (a b now : Nat) (r : MatchRec) : MatchRec :=
  if r.status == .pending && pairEq r a b then
    { r with status := .declined, updated_at := now }
  else r

/-- `Match.accept(userAId, userBId)`: the updated table together with
`affectedRows > 0` (whether any pending row for the pair matched). -/
def matchAccept (rows : List MatchRec) (a b now : Nat) : List MatchRec × Bool :=
  (rows.map (acceptRow a b now),
   rows.any (fun r => r.status == .pending && pairEq r a b))

/-- `Match.decline(userAId, userBId)`. -/
def matchDecline (rows : List MatchRec) (a b now : Nat) : List MatchRec × Bool :=
  (rows.map (declineRow a b now),
   rows.any (fun r => r.status == .pending && pairEq r a b))

/-! ## Notifications -/

/-- The `type` enum of the `notifications` table. -/
inductive NotifType where
  | connection_request
  | connection_accepted
  | connection_declined
  | message
  | system
  deriving Repr, DecidableEq

/-- A row of the `notifications` table (the JSON `data` column is not read by
any property here and is omitted). -/
structure NotificationRec where
  id : Nat
  user_id : Nat
  from_user_id : Option Nat
  ntype : NotifType
  title : String
  message : String
  is_read : Bool
  created_at : Nat
  read_at : Option Nat
  deriving Repr, DecidableEq

/-- `Notification.getByUserId(userId, {limit, offset, unreadOnly})`:
`WHERE user_id = ? [AND is_read = FALSE] ORDER BY created_at DESC
LIMIT ? OFFSET ?`.  Ties in `created_at` keep table order. -/
def notifGetByUserId (notifs : List NotificationRec) (uid : Nat)
    (lim off : Nat) (unreadOnly : Bool) : List NotificationRec :=
  (((sortDesc NotificationRec.created_at
      (notifs.filter (fun n => n.user_id == uid && (!unreadOnly || !n.is_read)))).drop off).take lim)

/-- Effect of `Notification.markAsRead(notificationId, userId)` on one row:
`WHERE id = ? AND user_id = ?`. -/
def markReadRow (nid uid now : Nat) (n : NotificationRec) : NotificationRec :=
  if n.id == nid && n.user_id == uid then
    { n with is_read := true, read_at := some now }
  else n

/-- `Notification.markAsRead(notificationId, userId)`. -/
def notifMarkAsRead (notifs : List NotificationRec) (nid uid now : Nat) :
    List NotificationRec :=
  notifs.map (markReadRow nid uid now)

/-- `Notification.delete(notificationId, userId)`:
`DELETE ... WHERE id = ? AND user_id = ?`. -/
def notifDelete (notifs : List NotificationRec) (nid uid : Nat) : List NotificationRec :=
  notifs.filter (fun n => !(n.id == nid && n.user_id == uid))

/-- The controller's `markAsRead` (`PUT /api/notifications/:id/read`): rejects
ids below 1 with a 400, otherwise runs the model query and answers
`success: true` without inspecting how many rows were affected.
Result: (table, HTTP status, `success` flag). -/
def markAsReadHandler (notifs : List NotificationRec) (caller nid now : Nat) :
    List NotificationRec × Nat × Bool :=
  if nid < 1 then (notifs, 400, false)
  else (notifMarkAsRead notifs nid caller now, 200, true)

/-- The controller's `deleteNotification` (`DELETE /api/notifications/:id`). -/
def deleteNotificationHandler (notifs : List NotificationRec) (caller nid : Nat) :
    List NotificationRec × Nat × Bool :=
  if nid < 1 then (notifs, 400, false)
  else (notifDelete notifs nid caller, 200, true)

/-! ## Accept route (`POST /api/matches/accept`) -/

/-- The mutable state touched by the accept route. -/
structure ConnState where
  users : List UserRec
  matchesTbl : List MatchRec
  notifications : List NotificationRec
  nextNotifId : Nat
  deriving DecidableEq

/-- `User.findById`. -/
def findById (users : List UserRec) (uid : Nat) : Option UserRec :=
  users.find? (fun u => u.id == uid)

/-- `Notification.create`: appends a fresh unread row. -/
def notificationCreate (st : ConnState) (uid : Nat) (fromUid : Option Nat)
    (t : NotifType) (title msg : String) (now : Nat) : ConnState :=
  { st with
    notifications := st.notifications ++
      [{ id := st.nextNotifId
         user_id := uid
         from_user_id := fromUid
         ntype := t
         title := title
         message := msg
         is_read := false
         created_at := now
         read_at := none }]
    nextNotifId := st.nextNotifId + 1 }

/-- An attempted email send; the route dispatches
`sendConnectionAcceptedToRequester` and `sendConnectionAcceptedToAccepter`. -/
inductive EmailKind where
  | acceptedToRequester
  | acceptedToAccepter
  deriving Repr, DecidableEq

/-- One attempted email dispatch, recorded with its recipient's user id. -/
structure EmailSend where
  recipient : Nat
  kind : EmailKind
  deriving Repr, DecidableEq

/-- Outcome of a route handler: new state, HTTP status, `success` flag, and
the list of attempted email sends. -/
structure HandlerResult where
  state : ConnState
  httpStatus : Nat
  success : Bool
  emails : List EmailSend
  deriving DecidableEq

/-- The `POST /api/matches/accept` handler: validates the body user id
(`!otherUserId || otherUserId === currentUserId`), runs `Match.accept`, answers
404 when no pending row matched, otherwise creates one `connection_accepted`
notification for the other user (skipped silently if the current user row is
missing, as the thrown error is caught and logged) and attempts two emails,
one to each party. -/
def acceptHandler (st : ConnState) (currentUserId otherUserId now : Nat) : HandlerResult :=
  if otherUserId == 0 || otherUserId == currentUserId then
    ⟨st, 400, false, []⟩
  else
    let res := matchAccept st.matchesTbl currentUserId otherUserId now
    if res.2 then
      let st1 : ConnState := { st with matchesTbl := res.1 }
      let st2 : ConnState :=
        match findById st.users currentUserId with
        | none => st1
        | some cu =>
            notificationCreate st1 otherUserId (some currentUserId)
              .connection_accepted "Connection Accepted"
              (cu.name ++ " accepted your connection request.") now
      ⟨st2, 200, true,
        [⟨otherUserId, .acceptedToRequester⟩, ⟨currentUserId, .acceptedToAccepter⟩]⟩
    else
      ⟨{ st with matchesTbl := res.1 }, 404, false, []⟩

/-! ## Helper lemmas about the stable descending sort -/

theorem mem_insertDesc (key : α → Nat) (x a : α) (l : List α) :
    a ∈ insertDesc key x l ↔ a = x ∨ a ∈ l := by
  induction l with
  | nil => simp [insertDesc]
  | cons y ys ih =>
    simp only [insertDesc]
    split
    · simp [List.mem_cons]
    · simp only [List.mem_cons, ih]
      tauto

theorem length_insertDesc (key : α → Nat) (x : α) (l : List α) :
    (insertDesc key x l).length = l.length + 1 := by
  induction l with
  | nil => rfl
  | cons y ys ih =>
    simp only [insertDesc]
    split
    · rfl
    · simp [ih]

theorem pairwise_insertDesc (key : α → Nat) (x : α) (l : List α)
    (h : l.Pairwise (fun a b => key b ≤ key a)) :
    (insertDesc key x l).Pairwise (fun a b => key b ≤ key a) := by
  induction l with
  | nil => simp [insertDesc]
  | cons y ys ih =>
    simp only [insertDesc]
    split
    · rename_i hlt
      refine List.Pairwise.cons ?_ h
      intro z hz
      rcases List.mem_cons.mp hz with rfl | hz'
      · exact Nat.le_of_lt hlt
      · exact Nat.le_trans ((List.pairwise_cons.mp h).1 z hz') (Nat.le_of_lt hlt)
    · rename_i hnlt
      have h' := List.pairwise_cons.mp h
      refine List.pairwise_cons.mpr ⟨?_, ih h'.2⟩
      intro z hz
      rcases (mem_insertDesc key x z ys).mp hz with rfl | hz'
      · exact Nat.le_of_not_lt hnlt
      · exact h'.1 z hz'

theorem mem_foldl_insertDesc (key : α → Nat) (l acc : List α) (a : α) :
    a ∈ l.foldl (fun acc x => insertDesc key x acc) acc ↔ a ∈ acc ∨ a ∈ l := by
  induction l generalizing acc with
  | nil => simp
  | cons x xs ih =>
    simp only [List.foldl_cons, ih, mem_insertDesc, List.mem_cons]
    tauto

theorem mem_sortDesc (key : α → Nat) (l : List α) (a : α) :
    a ∈ sortDesc key l ↔ a ∈ l := by
  simpa [sortDesc] using mem_foldl_insertDesc key l [] a

theorem pairwise_sortDesc (key : α → Nat) (l : List α) :
    (sortDesc key l).Pairwise (fun a b => key b ≤ key a) := by
  suffices h : ∀ acc : List α, acc.Pairwise (fun a b => key b ≤ key a) →
      (l.foldl (fun acc x => insertDesc key x acc) acc).Pairwise (fun a b => key b ≤ key a) by
    exact h [] List.Pairwise.nil
  induction l with
  | nil => intro acc hacc; exact hacc
  | cons x xs ih =>
    intro acc hacc
    exact ih _ (pairwise_insertDesc key x acc hacc)

theorem length_sortDesc (key : α → Nat) (l : List α) :
    (sortDesc key l).length = l.length := by
  suffices h : ∀ acc : List α,
      (l.foldl (fun acc x => insertDesc key x acc) acc).length = acc.length + l.length by
    simpa [sortDesc] using h []
  induction l with
  | nil => intro acc; simp
  | cons x xs ih =>
    intro acc
    simp only [List.foldl_cons, ih, length_insertDesc, List.length_cons]
    omega

theorem map_eq_self_of_fix (f : α → α) (l : List α) (h : ∀ a ∈ l, f a = a) :
    l.map f = l := by
  induction l with
  | nil => rfl
  | cons x xs ih =>
    simp only [List.map_cons]
    rw [h x (List.mem_cons_self x xs), ih (fun a ha => h a (List.mem_cons_of_mem x ha))]

/-! ## Helper lemmas about the connection workflow -/

theorem pairEq_symm (r : MatchRec) (a b : Nat) : pairEq r a b = pairEq r b a := by
  simp only [pairEq]
  cases h1 : r.user1_id == a <;> cases h2 : r.user2_id == b <;>
    cases h3 : r.user1_id == b <;> cases h4 : r.user2_id == a <;> rfl

theorem pairEq_of_matchKeyEq (r : MatchRec) (u1 u2 : Nat)
    (h : matchKeyEq r u1 u2 = true) : pairEq r u1 u2 = true := by
  simp only [matchKeyEq, Bool.and_eq_true] at h
  simp [pairEq, h.1, h.2]

theorem acceptRow_of_not (a b now : Nat) (r : MatchRec)
    (h : ¬(r.status = .pending ∧ pairEq r a b = true)) : acceptRow a b now r = r := by
  unfold acceptRow
  rw [if_neg]
  intro hc
  rw [Bool.and_eq_true, beq_iff_eq] at hc
  exact h hc

theorem declineRow_of_not (a b now : Nat) (r : MatchRec)
    (h : ¬(r.status = .pending ∧ pairEq r a b = true)) : declineRow a b now r = r := by
  unfold declineRow
  rw [if_neg]
  intro hc
  rw [Bool.and_eq_true, beq_iff_eq] at hc
  exact h hc

theorem pendingAny_eq_false (rows : List MatchRec) (a b : Nat)
    (h : ∀ r ∈ rows, ¬(r.status = .pending ∧ pairEq r a b = true)) :
    rows.any (fun r => r.status == .pending && pairEq r a b) = false := by
  rw [List.any_eq_false]
  intro r hr hc
  rw [Bool.and_eq_true, beq_iff_eq] at hc
  exact h r hr hc

theorem matchAccept_notfound (rows : List MatchRec) (a b now : Nat)
    (h : ∀ r ∈ rows, ¬(r.status = .pending ∧ pairEq r a b = true)) :
    matchAccept rows a b now = (rows, false) := by
  unfold matchAccept
  rw [pendingAny_eq_false rows a b h,
    map_eq_self_of_fix _ rows (fun r hr => acceptRow_of_not a b now r (h r hr))]

theorem matchDecline_notfound (rows : List MatchRec) (a b now : Nat)
    (h : ∀ r ∈ rows, ¬(r.status = .pending ∧ pairEq r a b = true)) :
    matchDecline rows a b now = (rows, false) := by
  unfold matchDecline
  rw [pendingAny_eq_false rows a b h,
    map_eq_self_of_fix _ rows (fun r hr => declineRow_of_not a b now r (h r hr))]

theorem no_pending_after_acceptRow (a b now : Nat) (r : MatchRec) :
    ¬((acceptRow a b now r).status = .pending ∧ pairEq (acceptRow a b now r) a b = true) := by
  unfold acceptRow
  split
  · rintro ⟨hs, -⟩
    exact MatchStatus.noConfusion hs
  · rename_i hc
    intro hp
    apply hc
    rw [Bool.and_eq_true, beq_iff_eq]
    exact hp

theorem no_pending_after_declineRow (a b now : Nat) (r : MatchRec) :
    ¬((declineRow a b now r).status = .pending ∧ pairEq (declineRow a b now r) a b = true) := by
  unfold declineRow
  split
  · rintro ⟨hs, -⟩
    exact MatchStatus.noConfusion hs
  · rename_i hc
    intro hp
    apply hc
    rw [Bool.and_eq_true, beq_iff_eq]
    exact hp

theorem no_pending_after_accept (rows : List MatchRec) (a b now : Nat) :
    ∀ r ∈ (matchAccept rows a b now).1, ¬(r.status = .pending ∧ pairEq r a b = true) := by
  intro r hr
  rcases List.mem_map.mp hr with ⟨r₀, -, rfl⟩
  exact no_pending_after_acceptRow a b now r₀

theorem no_pending_after_decline (rows : List MatchRec) (a b now : Nat) :
    ∀ r ∈ (matchDecline rows a b now).1, ¬(r.status = .pending ∧ pairEq r a b = true) := by
  intro r hr
  rcases List.mem_map.mp hr with ⟨r₀, -, rfl⟩
  exact no_pending_after_declineRow a b now r₀

theorem candidateRows_mem_iff (db : MatchDB) (rid : Nat) (r : MatchRow) :
    r ∈ candidateRows db rid ↔
      ∃ u ∈ db.users, isCandidate db rid u.id ∧
        r = { id := u.id
              name := u.name
              matching_skills_i_have := haveSet db rid ∩ wantSet db u.id
              matching_skills_i_want := haveSet db u.id ∩ wantSet db rid } := by
  simp only [candidateRows, List.mem_map, List.mem_filter, decide_eq_true_eq]
  constructor
  · rintro ⟨u, ⟨hu, hc⟩, rfl⟩
    exact ⟨u, hu, hc, rfl⟩
  · rintro ⟨u, ⟨hu, hc, rfl⟩⟩
    exact ⟨u, ⟨hu, hc⟩, rfl⟩

/-! ## Claim theorems -/

/-- C1: a user appears in the Matcher's candidate set for requester `rid`
(the result set of the `findMatches` query, before `ORDER BY`/`LIMIT`) iff the
user exists and the reciprocal overlap holds: the requester's have-skills meet
the user's want-skills and the user's have-skills meet the requester's
want-skills.  Every row the `LIMIT 20` query returns comes from that set, the
requester never appears in it, and a requester or user with no have-skills or
no want-skills yields no candidate. -/
theorem c1_candidate_iff (db : MatchDB) (rid uid : Nat) :
    ((∃ r ∈ candidateRows db rid, r.id = uid) ↔
      ((∃ u ∈ db.users, u.id = uid) ∧ isCandidate db rid uid))
    ∧ (∀ r ∈ findMatches db rid, r ∈ candidateRows db rid)
    ∧ (∀ r ∈ candidateRows db rid, r.id ≠ rid)
    ∧ ((haveSet db rid = ∅ ∨ wantSet db rid = ∅) → candidateRows db rid = [])
    ∧ ((haveSet db uid = ∅ ∨ wantSet db uid = ∅) →
        ∀ r ∈ candidateRows db rid, r.id ≠ uid) := by
  have hnocand_req : (haveSet db rid = ∅ ∨ wantSet db rid = ∅) →
      ∀ v : Nat, ¬ isCandidate db rid v := by
    rintro hv v ⟨-, h1, h2⟩
    rcases hv with he | hw
    · rw [he] at h1
      simp at h1
    · rw [hw] at h2
      simp at h2
  have hnocand_cand : ∀ v : Nat,
      (haveSet db v = ∅ ∨ wantSet db v = ∅) → ¬ isCandidate db rid v := by
    rintro v hv ⟨-, h1, h2⟩
    rcases hv with he | hw
    · rw [he] at h2
      simp at h2
    · rw [hw] at h1
      simp at h1
  refine ⟨?_, ?_, ?_, ?_, ?_⟩
  · constructor
    · rintro ⟨r, hr, hid⟩
      rcases (candidateRows_mem_iff db rid r).mp hr with ⟨u, hu, hc, rfl⟩
      have hid' : u.id = uid := hid
      refine ⟨⟨u, hu, hid'⟩, ?_⟩
      rw [← hid']
      exact hc
    · rintro ⟨⟨u, hu, hid⟩, hc⟩
      refine ⟨_, (candidateRows_mem_iff db rid _).mpr ⟨u, hu, ?_, rfl⟩, hid⟩
      rw [hid]
      exact hc
  · intro r hr
    have hr' : r ∈ sortDesc rowScore (candidateRows db rid) :=
      List.take_subset 20 _ hr
    exact (mem_sortDesc rowScore (candidateRows db rid) r).mp hr'
  · intro r hr
    rcases (candidateRows_mem_iff db rid r).mp hr with ⟨u, -, hc, rfl⟩
    exact hc.1
  · intro hempty
    have hfil : db.users.filter (fun u => decide (isCandidate db rid u.id)) = [] := by
      rw [List.filter_eq_nil_iff]
      intro u hu
      simpa using hnocand_req hempty u.id
    simp [candidateRows, hfil]
  · intro hempty r hr hid
    rcases (candidateRows_mem_iff db rid r).mp hr with ⟨u, -, hc, rfl⟩
    have hid' : u.id = uid := hid
    rw [hid'] at hc
    exact hnocand_cand uid hempty hc

/-- Concrete two-user database used to instantiate the matcher theorems:
user 1 has skill 10 and wants skill 11, user 2 has skill 11 and wants
skill 10. -/
def demoDB : MatchDB :=
  { users := [⟨1, "ann"⟩, ⟨2, "bob"⟩]
    have_skills := [⟨1, 10⟩, ⟨2, 11⟩]
    want_skills := [⟨1, 11⟩, ⟨2, 10⟩] }

/-- Witness for C1 at the concrete database `demoDB`, requester 1, user 2. -/
theorem c1_candidate_iff_witness :
    ((∃ r ∈ candidateRows demoDB 1, r.id = 2) ↔
      ((∃ u ∈ demoDB.users, u.id = 2) ∧ isCandidate demoDB 1 2))
    ∧ (∀ r ∈ findMatches demoDB 1, r ∈ candidateRows demoDB 1)
    ∧ (∀ r ∈ candidateRows demoDB 1, r.id ≠ 1)
    ∧ ((haveSet demoDB 1 = ∅ ∨ wantSet demoDB 1 = ∅) → candidateRows demoDB 1 = [])
    ∧ ((haveSet demoDB 2 = ∅ ∨ wantSet demoDB 2 = ∅) →
        ∀ r ∈ candidateRows demoDB 1, r.id ≠ 2) :=
  c1_candidate_iff demoDB 1 2

/-- C7: the reciprocal-overlap candidate predicate is symmetric in the two
users. -/
theorem c7_candidate_symm (db : MatchDB) (a b : Nat) :
    isCandidate db a b ↔ isCandidate db b a := by
  unfold isCandidate
  constructor
  · rintro ⟨h1, h2, h3⟩
    exact ⟨Ne.symm h1, h3, h2⟩
  · rintro ⟨h1, h2, h3⟩
    exact ⟨Ne.symm h1, h3, h2⟩

/-- Witness for C7 at the concrete database `demoDB`. -/
theorem c7_candidate_symm_witness :
    isCandidate demoDB 1 2 ↔ isCandidate demoDB 2 1 :=
  c7_candidate_symm demoDB 1 2

/-- C2: `Match.accept` and `Match.decline` change a row only when it is
pending (their update predicate requires `status = 'pending'`); when no
pending row exists for the pair they report not-found (`affectedRows = 0`)
and leave the table unchanged; and after an accept or a decline, repeating
either operation on the same pair reports not-found and changes nothing, so a
connection transitions out of pending at most once. -/
theorem c2_pending_transition_once :
    (∀ (a b now : Nat) (r : MatchRec), r.status ≠ .pending →
        acceptRow a b now r = r ∧ declineRow a b now r = r)
    ∧ (∀ (rows : List MatchRec) (a b now : Nat),
        (∀ r ∈ rows, ¬(r.status = .pending ∧ pairEq r a b = true)) →
          matchAccept rows a b now = (rows, false)
          ∧ matchDecline rows a b now = (rows, false))
    ∧ (∀ (rows : List MatchRec) (a b n n' : Nat),
        matchAccept (matchAccept rows a b n).1 a b n' = ((matchAccept rows a b n).1, false)
        ∧ matchDecline (matchAccept rows a b n).1 a b n' = ((matchAccept rows a b n).1, false)
        ∧ matchAccept (matchDecline rows a b n).1 a b n' = ((matchDecline rows a b n).1, false)
        ∧ matchDecline (matchDecline rows a b n).1 a b n' = ((matchDecline rows a b n).1, false)) := by
  refine ⟨?_, ?_, ?_⟩
  · intro a b now r h
    exact ⟨acceptRow_of_not a b now r (fun hc => h hc.1),
      declineRow_of_not a b now r (fun hc => h hc.1)⟩
  · intro rows a b now h
    exact ⟨matchAccept_notfound rows a b now h, matchDecline_notfound rows a b now h⟩
  · intro rows a b n n'
    exact ⟨matchAccept_notfound _ a b n' (no_pending_after_accept rows a b n),
      matchDecline_notfound _ a b n' (no_pending_after_accept rows a b n),
      matchAccept_notfound _ a b n' (no_pending_after_decline rows a b n),
      matchDecline_notfound _ a b n' (no_pending_after_decline rows a b n)⟩

/-- Witness for C2: an already-accepted row is untouched by both operations,
and a table whose only row for the pair is declined reports not-found. -/
theorem c2_pending_transition_once_witness :
    (acceptRow 1 2 7 ⟨1, 2, "m", MatchStatus.accepted, 0, 0⟩
        = ⟨1, 2, "m", MatchStatus.accepted, 0, 0⟩
      ∧ declineRow 1 2 7 ⟨1, 2, "m", MatchStatus.accepted, 0, 0⟩
        = ⟨1, 2, "m", MatchStatus.accepted, 0, 0⟩)
    ∧ (matchAccept [⟨1, 2, "m", MatchStatus.declined, 0, 0⟩] 1 2 7
        = ([⟨1, 2, "m", MatchStatus.declined, 0, 0⟩], false)
      ∧ matchDecline [⟨1, 2, "m", MatchStatus.declined, 0, 0⟩] 1 2 7
        = ([⟨1, 2, "m", MatchStatus.declined, 0, 0⟩], false)) :=
  ⟨c2_pending_transition_once.1 1 2 7 _ (by decide),
   c2_pending_transition_once.2.1 _ 1 2 7 (by decide)⟩

theorem createUpdateRow_of_not_key (u1 u2 : Nat) (s : String) (now : Nat) (r : MatchRec)
    (h : matchKeyEq r u1 u2 = false) : createUpdateRow u1 u2 s now r = r := by
  simp [createUpdateRow, h]

theorem matchCreate_insert (rows : List MatchRec) (u1 u2 : Nat) (s : String) (now : Nat)
    (h : ∀ r ∈ rows, matchKeyEq r u1 u2 = false) :
    matchCreate rows u1 u2 s now = rows ++ [newMatchRow u1 u2 s now] := by
  unfold matchCreate
  rw [if_neg]
  intro hc
  rcases List.any_eq_true.mp hc with ⟨r, hr, hk⟩
  rw [h r hr] at hk
  cases hk

theorem matchCreate_update (rows : List MatchRec) (u1 u2 : Nat) (s : String) (now : Nat)
    (h : ∃ r ∈ rows, matchKeyEq r u1 u2 = true) :
    matchCreate rows u1 u2 s now = rows.map (createUpdateRow u1 u2 s now) := by
  unfold matchCreate
  rw [if_pos]
  exact List.any_eq_true.mpr ⟨h.choose, h.choose_spec⟩

/-- C3: when a row with the same ordered `(initiator, target)` key already
exists, `Match.create` only rewrites the matched-skills snapshot and
`updated_at` of that row — initiator, target, status and `created_at` are
preserved and every other row is untouched; consequently in the scenario
propose(A,B), decline(B,A), propose(A,B), the pair's row still has status
declined (with the refreshed snapshot). -/
theorem c3_repropose_keeps_status :
    (∀ (rows : List MatchRec) (u1 u2 : Nat) (s : String) (now : Nat),
        (∃ r ∈ rows, matchKeyEq r u1 u2 = true) →
          matchCreate rows u1 u2 s now = rows.map (createUpdateRow u1 u2 s now))
    ∧ (∀ (u1 u2 : Nat) (s : String) (now : Nat) (r : MatchRec),
        (createUpdateRow u1 u2 s now r).status = r.status
        ∧ (createUpdateRow u1 u2 s now r).user1_id = r.user1_id
        ∧ (createUpdateRow u1 u2 s now r).user2_id = r.user2_id
        ∧ (createUpdateRow u1 u2 s now r).created_at = r.created_at
        ∧ (matchKeyEq r u1 u2 = false → createUpdateRow u1 u2 s now r = r)
        ∧ (matchKeyEq r u1 u2 = true →
            (createUpdateRow u1 u2 s now r).matched_skills = s
            ∧ (createUpdateRow u1 u2 s now r).updated_at = now))
    ∧ (∀ (rows : List MatchRec) (a b : Nat) (s1 s2 : String) (n1 n2 n3 : Nat),
        (∀ r ∈ rows, pairEq r a b = false) →
          ∀ r ∈ matchCreate
              ((matchDecline (matchCreate rows a b s1 n1) b a n2).1) a b s2 n3,
            pairEq r a b = true → r.status = .declined ∧ r.matched_skills = s2) := by
  refine ⟨matchCreate_update, ?_, ?_⟩
  · intro u1 u2 s now r
    refine ⟨?_, ?_, ?_, ?_, createUpdateRow_of_not_key u1 u2 s now r, ?_⟩
    · unfold createUpdateRow
      split <;> rfl
    · unfold createUpdateRow
      split <;> rfl
    · unfold createUpdateRow
      split <;> rfl
    · unfold createUpdateRow
      split <;> rfl
    · intro hk
      unfold createUpdateRow
      rw [if_pos hk]
      exact ⟨rfl, rfl⟩
  · intro rows a b s1 s2 n1 n2 n3 h
    have hkey : ∀ r ∈ rows, matchKeyEq r a b = false := by
      intro r hr
      cases hk : matchKeyEq r a b
      · rfl
      · exact absurd (h r hr) (by rw [pairEq_of_matchKeyEq r a b hk]; simp)
    have e1 : matchCreate rows a b s1 n1 = rows ++ [newMatchRow a b s1 n1] :=
      matchCreate_insert rows a b s1 n1 hkey
    have hnew : declineRow b a n2 (newMatchRow a b s1 n1) =
        ⟨a, b, s1, .declined, n1, n2⟩ := by
      simp [declineRow, newMatchRow, pairEq]
    have e2 : (matchDecline (matchCreate rows a b s1 n1) b a n2).1 =
        rows ++ [⟨a, b, s1, .declined, n1, n2⟩] := by
      rw [e1]
      show (rows ++ [newMatchRow a b s1 n1]).map (declineRow b a n2) = _
      rw [List.map_append,
        map_eq_self_of_fix _ rows (fun r hr => declineRow_of_not b a n2 r (by
          rw [pairEq_symm r b a]
          intro hc
          rw [h r hr] at hc
          cases hc.2)),
        List.map_cons, List.map_nil, hnew]
    have e3 : matchCreate (rows ++ [⟨a, b, s1, .declined, n1, n2⟩]) a b s2 n3 =
        rows.map (createUpdateRow a b s2 n3) ++ [⟨a, b, s2, .declined, n1, n3⟩] := by
      rw [matchCreate_update _ a b s2 n3
        ⟨⟨a, b, s1, .declined, n1, n2⟩, by simp, by simp [matchKeyEq]⟩]
      rw [List.map_append, List.map_cons, List.map_nil]
      congr 1
      simp [createUpdateRow, matchKeyEq]
    rw [e2, e3]
    intro r hr hp
    rcases List.mem_append.mp hr with hr' | hr'
    · rcases List.mem_map.mp hr' with ⟨r₀, hr₀, rfl⟩
      rw [createUpdateRow_of_not_key a b s2 n3 r₀ (hkey r₀ hr₀)] at hp ⊢
      rw [h r₀ hr₀] at hp
      cases hp
    · rcases List.mem_singleton.mp hr' with rfl
      exact ⟨rfl, rfl⟩

/-- Witness for C3: concretely, after user 1 proposes to user 2, user 2
declines, and user 1 re-proposes with snapshot "s2", the pair's row is still
declined and carries the fresh snapshot. -/
theorem c3_repropose_keeps_status_witness :
    ∀ r ∈ matchCreate ((matchDecline (matchCreate [] 1 2 "s1" 10) 2 1 11).1) 1 2 "s2" 12,
      pairEq r 1 2 = true → r.status = .declined ∧ r.matched_skills = "s2" :=
  c3_repropose_keeps_status.2.2 [] 1 2 "s1" "s2" 10 11 12 (by decide)

/-- Number of rows whose ordered key `(user1_id, user2_id)` equals `(u1, u2)`
(the schema's `UNIQUE KEY unique_match (user1_id, user2_id)`). -/
def orderedKeyCount (rows : List MatchRec) (u1 u2 : Nat) : Nat :=
  rows.countP (fun r => matchKeyEq r u1 u2)

/-- Number of rows between the unordered pair `{a, b}`. -/
def unorderedPairCount (rows : List MatchRec) (a b : Nat) : Nat :=
  rows.countP (fun r => pairEq r a b)

/-- C4 counterexample: starting from an empty table, user 1 proposes to user 2
and then user 2 proposes to user 1; `Match.create`'s duplicate-key test uses
the ordered `(user1_id, user2_id)` key, so the second propose inserts a second
row and two connection records for the unordered pair {1, 2} coexist. -/
theorem c4_counterexample :
    (matchCreate (matchCreate [] 1 2 "m" 0) 2 1 "m" 1).length = 2
    ∧ unorderedPairCount (matchCreate (matchCreate [] 1 2 "m" 0) 2 1 "m" 1) 1 2 = 2 := by
  constructor <;> rfl

/-- C4 (amended): uniqueness holds per ordered `(initiator, target)` pair
only — `Match.create` never produces a second row with the same `user1_id`
and `user2_id` (the unique key dedups re-proposals in the same direction and
updates in place), and it leaves the row count of every other ordered key
unchanged; it does not deduplicate across the two directions of a pair. -/
theorem c4_ordered_pair_unique (rows : List MatchRec) (u1 u2 : Nat) (s : String) (now : Nat) :
    (orderedKeyCount rows u1 u2 ≤ 1 →
      orderedKeyCount (matchCreate rows u1 u2 s now) u1 u2 ≤ 1)
    ∧ (∀ v1 v2 : Nat, ¬(v1 = u1 ∧ v2 = u2) →
        orderedKeyCount (matchCreate rows u1 u2 s now) v1 v2
          = orderedKeyCount rows v1 v2) := by
  have hcomp : ∀ v1 v2 : Nat,
      (fun r => matchKeyEq r v1 v2) ∘ createUpdateRow u1 u2 s now
        = fun r => matchKeyEq r v1 v2 := by
    intro v1 v2
    funext r
    show matchKeyEq (createUpdateRow u1 u2 s now r) v1 v2 = matchKeyEq r v1 v2
    unfold createUpdateRow matchKeyEq
    split <;> rfl
  cases hany : rows.any (fun r => matchKeyEq r u1 u2) with
  | false =>
    have hall : ∀ r ∈ rows, matchKeyEq r u1 u2 = false := by
      intro r hr
      simpa using List.any_eq_false.mp hany r hr
    have e := matchCreate_insert rows u1 u2 s now hall
    constructor
    · intro hle
      rw [e]
      unfold orderedKeyCount
      rw [List.countP_append]
      have h0 : rows.countP (fun r => matchKeyEq r u1 u2) = 0 := by
        rw [List.countP_eq_zero]
        intro r hr
        simp [hall r hr]
      have h1 : matchKeyEq (newMatchRow u1 u2 s now) u1 u2 = true := by
        unfold newMatchRow matchKeyEq
        simp
      simp [h0, List.countP_cons, h1]
    · intro v1 v2 hne
      rw [e]
      unfold orderedKeyCount
      rw [List.countP_append]
      have hk : matchKeyEq (newMatchRow u1 u2 s now) v1 v2 = false := by
        rw [Bool.eq_false_iff]
        intro hk
        unfold newMatchRow matchKeyEq at hk
        rw [Bool.and_eq_true, beq_iff_eq, beq_iff_eq] at hk
        exact hne ⟨hk.1.symm, hk.2.symm⟩
      simp [List.countP_cons, hk]
  | true =>
    rcases List.any_eq_true.mp hany with ⟨r0, hr0, hk0⟩
    have e := matchCreate_update rows u1 u2 s now ⟨r0, hr0, hk0⟩
    constructor
    · intro hle
      rw [e]
      unfold orderedKeyCount at hle ⊢
      rw [List.countP_map, hcomp]
      exact hle
    · intro v1 v2 hne
      rw [e]
      unfold orderedKeyCount
      rw [List.countP_map, hcomp]

/-- Witness for C4 (amended): re-proposing in the same direction keeps a
single row for the ordered key (1, 2) and leaves the reverse key (2, 1)
untouched. -/
theorem c4_ordered_pair_unique_witness :
    orderedKeyCount (matchCreate [⟨1, 2, "m", MatchStatus.pending, 0, 0⟩] 1 2 "n" 1) 1 2 ≤ 1
    ∧ orderedKeyCount (matchCreate [⟨1, 2, "m", MatchStatus.pending, 0, 0⟩] 1 2 "n" 1) 2 1
        = orderedKeyCount [⟨1, 2, "m", MatchStatus.pending, 0, 0⟩] 2 1 :=
  ⟨(c4_ordered_pair_unique _ 1 2 "n" 1).1 (by decide),
   (c4_ordered_pair_unique _ 1 2 "n" 1).2 2 1 (by decide)⟩

/-- Database refuting the name tie-break: requester 1; users 2 ("zed", table
order first) and 3 ("amy") both have match score 2. -/
def cexDB : MatchDB :=
  { users := [⟨1, "ann"⟩, ⟨2, "zed"⟩, ⟨3, "amy"⟩]
    have_skills := [⟨1, 10⟩, ⟨2, 11⟩, ⟨3, 11⟩]
    want_skills := [⟨1, 11⟩, ⟨2, 10⟩, ⟨3, 10⟩] }

/-- C5 counterexample: neither the SQL (`ORDER BY` score only) nor the route
(`sort` comparing `matchScore` only) ever compares names, so two candidates
with equal score keep table order: "zed" is listed before "amy", violating
the claimed name-ascending tie-break. -/
theorem c5_counterexample :
    processedMatches cexDB 1 =
      [⟨2, "zed", {10}, {11}, 2⟩, ⟨3, "amy", {10}, {11}, 2⟩]
    ∧ ¬ (processedMatches cexDB 1).Pairwise
        (fun a b => b.matchScore < a.matchScore
          ∨ (a.matchScore = b.matchScore ∧ a.name ≤ b.name)) := by
  have he : processedMatches cexDB 1 =
      [⟨2, "zed", {10}, {11}, 2⟩, ⟨3, "amy", {10}, {11}, 2⟩] := by decide
  refine ⟨he, ?_⟩
  rw [he]
  intro h
  rcases (List.pairwise_cons.mp h).1 _ (List.mem_cons_self _ _) with h2 | ⟨-, hle⟩
  · exact absurd h2 (by decide)
  · rw [String.le_iff_toList_le] at hle
    exact absurd hle (by decide)

/-- C5 (amended): the returned candidate list is ordered by `matchScore`
descending, both before and after pagination; candidates with equal score are
not reordered by name — they keep the order of the previous stage (the
database row order), which no part of the code pins down. -/
theorem c5_sorted_by_score (db : MatchDB) (rid lim off : Nat) :
    (processedMatches db rid).Pairwise (fun a b => b.matchScore ≤ a.matchScore)
    ∧ (getMatchesPage db rid lim off).Pairwise
        (fun a b => b.matchScore ≤ a.matchScore) := by
  constructor
  · exact pairwise_sortDesc _ _
  · have h1 : List.Sublist (getMatchesPage db rid lim off) (processedMatches db rid) :=
      (List.take_sublist _ _).trans (List.drop_sublist _ _)
    exact List.Pairwise.sublist h1 (pairwise_sortDesc _ _)

/-- C9: `Match.findMatches` truncates its result to 20 rows before the route
paginates, so the reported `pagination.total` never exceeds 20 and any offset
of at least 20 yields an empty page. -/
theorem c9_query_truncated_to_20 (db : MatchDB) (rid lim off : Nat) :
    paginationTotal db rid ≤ 20
    ∧ (20 ≤ off → getMatchesPage db rid lim off = []) := by
  have hlen : (processedMatches db rid).length ≤ 20 := by
    unfold processedMatches
    rw [length_sortDesc, List.length_map]
    unfold findMatches
    exact List.length_take_le _ _
  refine ⟨hlen, ?_⟩
  intro hoff
  unfold getMatchesPage
  rw [List.drop_eq_nil_of_le (le_trans hlen hoff), List.take_nil]

/-- Database with 21 reciprocal candidates for requester 0: every user
`1..21` has skill 200 and wants skill 100, while the requester has 100 and
wants 200. -/
def db21 : MatchDB :=
  { users := ⟨0, "r"⟩ :: (List.range 21).map (fun i => ⟨i + 1, "u"⟩)
    have_skills := ⟨0, 100⟩ :: (List.range 21).map (fun i => ⟨i + 1, 200⟩)
    want_skills := ⟨0, 200⟩ :: (List.range 21).map (fun i => ⟨i + 1, 100⟩) }

/-- Witness for C9: `db21` has 21 reciprocal candidates, yet the reported
total is at most 20 and the page at offset 20 is empty. -/
theorem c9_query_truncated_to_20_witness :
    20 < (candidateRows db21 0).length
    ∧ paginationTotal db21 0 ≤ 20
    ∧ getMatchesPage db21 0 10 20 = [] :=
  ⟨by decide, (c9_query_truncated_to_20 db21 0 10 20).1,
   (c9_query_truncated_to_20 db21 0 10 20).2 (by decide)⟩

/-- C6: when a pending connection exists for the pair and the accepter is a
valid distinct user, the accept route succeeds, appends exactly one
`connection_accepted` notification addressed to the original requester, and
attempts exactly two email sends, one to the requester and one to the
accepter. -/
theorem c6_accept_notifies_and_emails (st : ConnState) (accepter requester now : Nat)
    (cu : UserRec)
    (hreq : requester ≠ 0) (hne : requester ≠ accepter)
    (hpend : ∃ r ∈ st.matchesTbl, r.status = .pending ∧ pairEq r accepter requester = true)
    (hcu : findById st.users accepter = some cu) :
    (acceptHandler st accepter requester now).success = true
    ∧ (acceptHandler st accepter requester now).httpStatus = 200
    ∧ (acceptHandler st accepter requester now).state.notifications
        = st.notifications ++
          [⟨st.nextNotifId, requester, some accepter, .connection_accepted,
            "Connection Accepted", cu.name ++ " accepted your connection request.",
            false, now, none⟩]
    ∧ ((acceptHandler st accepter requester now).state.notifications.countP
          (fun n => n.ntype == .connection_accepted && n.user_id == requester))
        = (st.notifications.countP
            (fun n => n.ntype == .connection_accepted && n.user_id == requester)) + 1
    ∧ (acceptHandler st accepter requester now).emails
        = [⟨requester, .acceptedToRequester⟩, ⟨accepter, .acceptedToAccepter⟩]
    ∧ (acceptHandler st accepter requester now).emails.length = 2 := by
  have hguard : (requester == 0 || requester == accepter) = false := by
    simp [hreq, hne]
  have h2 : (matchAccept st.matchesTbl accepter requester now).2 = true := by
    rcases hpend with ⟨r, hr, hs, hp⟩
    refine List.any_eq_true.mpr ⟨r, hr, ?_⟩
    rw [Bool.and_eq_true, beq_iff_eq]
    exact ⟨hs, hp⟩
  have heq : acceptHandler st accepter requester now =
      ⟨notificationCreate
          { st with matchesTbl := (matchAccept st.matchesTbl accepter requester now).1 }
          requester (some accepter) .connection_accepted "Connection Accepted"
          (cu.name ++ " accepted your connection request.") now,
        200, true,
        [⟨requester, .acceptedToRequester⟩, ⟨accepter, .acceptedToAccepter⟩]⟩ := by
    unfold acceptHandler
    rw [hguard]
    simp only [Bool.false_eq_true, if_false]
    rw [h2]
    simp only [if_true]
    rw [hcu]
  rw [heq]
  refine ⟨rfl, rfl, ?_, ?_, rfl, rfl⟩
  · simp [notificationCreate]
  · simp [notificationCreate, List.countP_append, List.countP_cons]

/-- Witness for C6: user 2 proposed to user 1 (pending row (2,1)); user 1
accepts; one `connection_accepted` notification goes to user 2 and two email
sends are attempted. -/
theorem c6_accept_notifies_and_emails_witness :
    (acceptHandler ⟨[⟨1, "bob"⟩, ⟨2, "eve"⟩], [⟨2, 1, "m", .pending, 0, 0⟩], [], 5⟩ 1 2 9).success
        = true
    ∧ (acceptHandler ⟨[⟨1, "bob"⟩, ⟨2, "eve"⟩], [⟨2, 1, "m", .pending, 0, 0⟩], [], 5⟩ 1 2 9).httpStatus
        = 200
    ∧ (acceptHandler ⟨[⟨1, "bob"⟩, ⟨2, "eve"⟩], [⟨2, 1, "m", .pending, 0, 0⟩], [], 5⟩ 1 2 9).state.notifications
        = [] ++
          [⟨5, 2, some 1, .connection_accepted, "Connection Accepted",
            "bob" ++ " accepted your connection request.", false, 9, none⟩]
    ∧ ((acceptHandler ⟨[⟨1, "bob"⟩, ⟨2, "eve"⟩], [⟨2, 1, "m", .pending, 0, 0⟩], [], 5⟩ 1 2 9).state.notifications.countP
          (fun n => n.ntype == .connection_accepted && n.user_id == 2))
        = (List.countP (fun n => n.ntype == .connection_accepted && n.user_id == 2)
            ([] : List NotificationRec)) + 1
    ∧ (acceptHandler ⟨[⟨1, "bob"⟩, ⟨2, "eve"⟩], [⟨2, 1, "m", .pending, 0, 0⟩], [], 5⟩ 1 2 9).emails
        = [⟨2, .acceptedToRequester⟩, ⟨1, .acceptedToAccepter⟩]
    ∧ (acceptHandler ⟨[⟨1, "bob"⟩, ⟨2, "eve"⟩], [⟨2, 1, "m", .pending, 0, 0⟩], [], 5⟩ 1 2 9).emails.length
        = 2 :=
  c6_accept_notifies_and_emails _ 1 2 9 ⟨1, "bob"⟩ (by decide) (by decide)
    ⟨⟨2, 1, "m", .pending, 0, 0⟩, by simp, rfl, rfl⟩ rfl

/-- C8: the notification list query returns only rows addressed to the given
user, ordered newest first by `created_at`. -/
theorem c8_notifications_newest_first (notifs : List NotificationRec)
    (uid lim off : Nat) (unreadOnly : Bool) :
    (∀ n ∈ notifGetByUserId notifs uid lim off unreadOnly, n.user_id = uid)
    ∧ (notifGetByUserId notifs uid lim off unreadOnly).Pairwise
        (fun a b => b.created_at ≤ a.created_at) := by
  constructor
  · intro n hn
    unfold notifGetByUserId at hn
    have h1 := List.drop_subset _ _ (List.take_subset _ _ hn)
    have h2 := (mem_sortDesc _ _ n).mp h1
    have h3 := List.mem_filter.mp h2
    have h4 := h3.2
    rw [Bool.and_eq_true, beq_iff_eq] at h4
    exact h4.1
  · unfold notifGetByUserId
    exact List.Pairwise.sublist
      ((List.take_sublist _ _).trans (List.drop_sublist _ _))
      (pairwise_sortDesc _ _)

/-- Witness for C8 on a concrete three-row table: user 7's rows come back
newest first, user 8's row is excluded. -/
theorem c8_notifications_newest_first_witness :
    (∀ n ∈ notifGetByUserId
        [⟨1, 7, none, .system, "t", "m", false, 5, none⟩,
         ⟨2, 7, none, .system, "t", "m", false, 9, none⟩,
         ⟨3, 8, none, .system, "t", "m", false, 6, none⟩] 7 20 0 false,
      n.user_id = 7)
    ∧ (notifGetByUserId
        [⟨1, 7, none, .system, "t", "m", false, 5, none⟩,
         ⟨2, 7, none, .system, "t", "m", false, 9, none⟩,
         ⟨3, 8, none, .system, "t", "m", false, 6, none⟩] 7 20 0 false).Pairwise
        (fun a b => b.created_at ≤ a.created_at) :=
  c8_notifications_newest_first _ 7 20 0 false

/-- C10: mark-read and delete only touch rows whose `user_id` is the caller;
when the id belongs to another user's notification, the table is unchanged
and the controller still answers HTTP 200 with `success: true`. -/
theorem c10_mark_delete_owner_only (notifs : List NotificationRec) (caller nid now : Nat)
    (hnid : 1 ≤ nid) :
    (∀ n ∈ notifs, n.user_id ≠ caller →
        markReadRow nid caller now n = n ∧ n ∈ notifDelete notifs nid caller)
    ∧ ((∀ n ∈ notifs, n.id = nid → n.user_id ≠ caller) →
        markAsReadHandler notifs caller nid now = (notifs, 200, true)
        ∧ deleteNotificationHandler notifs caller nid = (notifs, 200, true)) := by
  have hif : ¬ (nid < 1) := by omega
  constructor
  · intro n hn hu
    constructor
    · unfold markReadRow
      rw [if_neg]
      intro hc
      rw [Bool.and_eq_true, beq_iff_eq, beq_iff_eq] at hc
      exact hu hc.2
    · unfold notifDelete
      rw [List.mem_filter]
      refine ⟨hn, ?_⟩
      have hb : (n.id == nid && n.user_id == caller) = false := by
        rw [Bool.eq_false_iff]
        intro hc
        rw [Bool.and_eq_true, beq_iff_eq, beq_iff_eq] at hc
        exact hu hc.2
      rw [hb]
      rfl
  · intro hother
    have hmap : ∀ n ∈ notifs, markReadRow nid caller now n = n := by
      intro n hn
      unfold markReadRow
      rw [if_neg]
      intro hc
      rw [Bool.and_eq_true, beq_iff_eq, beq_iff_eq] at hc
      exact hother n hn hc.1 hc.2
    have hfil : notifDelete notifs nid caller = notifs := by
      unfold notifDelete
      apply List.filter_eq_self.mpr
      intro n hn
      have hb : (n.id == nid && n.user_id == caller) = false := by
        rw [Bool.eq_false_iff]
        intro hc
        rw [Bool.and_eq_true, beq_iff_eq, beq_iff_eq] at hc
        exact hother n hn hc.1 hc.2
      rw [hb]
      rfl
    constructor
    · unfold markAsReadHandler
      rw [if_neg hif]
      unfold notifMarkAsRead
      rw [map_eq_self_of_fix _ notifs hmap]
    · unfold deleteNotificationHandler
      rw [if_neg hif, hfil]

/-- Witness for C10: notification 4 belongs to user 9; caller 7's mark-read
and delete leave the table unchanged and still report success. -/
theorem c10_mark_delete_owner_only_witness :
    markAsReadHandler [⟨4, 9, none, .system, "t", "m", false, 0, none⟩] 7 4 3
      = ([⟨4, 9, none, .system, "t", "m", false, 0, none⟩], 200, true)
    ∧ deleteNotificationHandler [⟨4, 9, none, .system, "t", "m", false, 0, none⟩] 7 4
      = ([⟨4, 9, none, .system, "t", "m", false, 0, none⟩], 200, true) :=
  (c10_mark_delete_owner_only _ 7 4 3 (by decide)).2 (by decide)
